import Mathlib

/-! Verification of the receipt-points service (`receiptHandler.go`).

Shallow embedding of the repository `fetch-takehome`: the data model
(`PostReceiptJSON`, `Item`, `StorageReceipt`), the points engine
(`findPoints`), and the HTTP handlers (`handleProcessReceipts`,
`handleGetReceiptPoints`).

Go `float64` values are modelled exactly: a finite double is an exact
rational number, produced only by correct round-to-nearest-ties-to-even
rounding, plus the special values `+Inf`, `-Inf`, `NaN`.  Negative zero is
not distinguished from zero: the only float observations the program makes
are `==` comparisons, `Floor`/`Ceil`, `Mod` and conversion to `int`, none
of which can tell `-0` from `+0`.

Go `int` is modelled as unbounded `Int`.  All reachable scores are tiny
(bounded by the receipt's size in memory), so 64-bit wraparound is never
exercised; the float→int conversion `int(x)` does model the amd64
clamping behaviour for out-of-range values.
-/

set_option maxRecDepth 100000

/-- Decidable equality for `Except` (not provided by core), so that
concrete runs of the fallible parsers can be settled by `decide`. -/
instance {ε α : Type} [DecidableEq ε] [DecidableEq α] : DecidableEq (Except ε α) := fun x y =>
  match x, y with
  | .ok a, .ok b =>
      if h : a = b then isTrue (by rw [h]) else isFalse (fun hc => h (Except.ok.inj hc))
  | .ok _, .error _ => isFalse (fun hc => Except.noConfusion hc)
  | .error _, .ok _ => isFalse (fun hc => Except.noConfusion hc)
  | .error a, .error b =>
      if h : a = b then isTrue (by rw [h]) else isFalse (fun hc => h (Except.error.inj hc))

namespace Receipt

/-! ## IEEE 754 binary64, as exact rationals -/

/-- A Go `float64`: a finite value (an exact rational, only ever produced by
correct rounding so it is always representable), or `±Inf`, or `NaN`. -/
inductive F where
  | finite (q : ℚ)
  | posInf
  | negInf
  | nan
  deriving DecidableEq

/-- Multiplication on `ℚ` through the normalizing constructor `Rat.divInt`.
Batteries marks `Rat.mul`, `Rat.add`, `Rat.sub` and `Rat.inv`
`@[irreducible]`, which blocks `decide` on any concrete computation built
from `*`, `-`, `/`; the model therefore uses these equivalents
(`qMul_eq_mul` and friends below prove they agree with the field
operations). -/
def qMul (a b : ℚ) : ℚ := Rat.divInt (a.num * b.num) ((a.den : Int) * b.den)

/-- Subtraction on `ℚ` through `Rat.divInt` (see `qMul`). -/
def qSub (a b : ℚ) : ℚ :=
  Rat.divInt (a.num * (b.den : Int) - b.num * (a.den : Int)) ((a.den : Int) * b.den)

/-- Division on `ℚ` through `Rat.divInt` (see `qMul`); division by zero
gives zero, as in Mathlib. -/
def qDiv (a b : ℚ) : ℚ := Rat.divInt (a.num * (b.den : Int)) ((a.den : Int) * b.num)

/-- The rational `2 ^ k`, for an integer (possibly negative) exponent. -/
def pow2 (k : Int) : ℚ :=
  if 0 ≤ k then ((2 ^ k.toNat : ℕ) : ℚ) else mkRat 1 (2 ^ (-k).toNat)

/-- The rational `10 ^ k`, for an integer (possibly negative) exponent. -/
def pow10 (k : Int) : ℚ :=
  if 0 ≤ k then ((10 ^ k.toNat : ℕ) : ℚ) else mkRat 1 (10 ^ (-k).toNat)

/-- Truncation toward zero of a rational, as in C/Go float→int conversion. -/
def ratTrunc (q : ℚ) : Int :=
  if 0 ≤ q then q.floor else -((-q).floor)

/-- Nearest integer to `q`, ties to even. -/
def roundTiesEven (q : ℚ) : Int :=
  let f := q.floor
  let r := qSub q (f : ℚ)
  if r < mkRat 1 2 then f
  else if mkRat 1 2 < r then f + 1
  else if f % 2 = 0 then f else f + 1

/-- Fuelled base-2 logarithm (`Nat.log2` is well-founded recursion, which
does not reduce definitionally; this structural version does). -/
def natLog2Aux : Nat → Nat → Nat
  | 0, _ => 0
  | fuel + 1, n => if 2 ≤ n then natLog2Aux fuel (n / 2) + 1 else 0

/-- The value of `Nat.log2`, computed with enough fuel. -/
def natLog2 (n : Nat) : Nat := natLog2Aux n n

/-- For `0 < q`, the unique `k` with `2 ^ k ≤ q < 2 ^ (k + 1)`. -/
def ratLog2 (q : ℚ) : Int :=
  let k : Int := (natLog2 q.num.natAbs : Int) - (natLog2 q.den : Int)
  if pow2 (k + 1) ≤ q then k + 1
  else if pow2 k ≤ q then k
  else k - 1

/-- Round a positive rational to the nearest binary64 value
(round-to-nearest, ties to even; overflow gives `+Inf`; gradual underflow
handled by clamping the exponent at the subnormal scale `2 ^ (-1074)`). -/
def fpRoundPosQ (q : ℚ) : F :=
  let e : Int := max (-1074) (ratLog2 q - 52)
  let m : Int := roundTiesEven (qMul q (pow2 (-e)))
  if pow2 1024 ≤ qMul (m : ℚ) (pow2 e) then F.posInf
  else F.finite (qMul (m : ℚ) (pow2 e))

/-- Round any rational to the nearest binary64 value. -/
def fpRound (q : ℚ) : F :=
  if q = 0 then F.finite 0
  else if 0 < q then fpRoundPosQ q
  else
    match fpRoundPosQ (-q) with
    | F.finite r => F.finite (-r)
    | _ => F.negInf

/-- Go `==` on `float64`: `NaN` compares unequal to everything (itself
included); finite values compare as exact rationals. -/
def fpBeq : F → F → Bool
  | F.finite a, F.finite b => a = b
  | F.posInf, F.posInf => true
  | F.negInf, F.negInf => true
  | _, _ => false

/-- Go `math.Floor`: exact on finite doubles; fixes `±Inf` and `NaN`. -/
def fpFloor : F → F
  | F.finite q => F.finite ((q.floor : Int) : ℚ)
  | f => f

/-- Go `math.Ceil`: exact on finite doubles; fixes `±Inf` and `NaN`. -/
def fpCeil : F → F
  | F.finite q => F.finite ((q.ceil : Int) : ℚ)
  | f => f

/-- Go `math.Mod(x, y) = x - y * Trunc(x / y)`, which IEEE 754 guarantees is
exact (no rounding step).  Specials per the Go documentation:
`Mod(±Inf, y) = NaN`, `Mod(NaN, y) = NaN`, `Mod(x, 0) = NaN`,
`Mod(x, ±Inf) = x`, `Mod(x, NaN) = NaN`. -/
def fpMod : F → F → F
  | F.nan, _ => F.nan
  | _, F.nan => F.nan
  | F.posInf, _ => F.nan
  | F.negInf, _ => F.nan
  | F.finite x, F.posInf => F.finite x
  | F.finite x, F.negInf => F.finite x
  | F.finite x, F.finite y =>
      if y = 0 then F.nan else F.finite (qSub x (qMul y (ratTrunc (qDiv x y) : ℚ)))

/-- Go `float64` multiplication: exact product, then one rounding. -/
def fpMul : F → F → F
  | F.nan, _ => F.nan
  | _, F.nan => F.nan
  | F.finite a, F.finite b => fpRound (qMul a b)
  | F.finite a, F.posInf => if a = 0 then F.nan else if 0 < a then F.posInf else F.negInf
  | F.finite a, F.negInf => if a = 0 then F.nan else if 0 < a then F.negInf else F.posInf
  | F.posInf, F.finite b => if b = 0 then F.nan else if 0 < b then F.posInf else F.negInf
  | F.negInf, F.finite b => if b = 0 then F.nan else if 0 < b then F.negInf else F.posInf
  | F.posInf, F.posInf => F.posInf
  | F.posInf, F.negInf => F.negInf
  | F.negInf, F.posInf => F.negInf
  | F.negInf, F.negInf => F.posInf

/-- Go `float64` division: exact quotient, then one rounding. -/
def fpDiv : F → F → F
  | F.nan, _ => F.nan
  | _, F.nan => F.nan
  | F.finite a, F.finite b =>
      if b = 0 then (if a = 0 then F.nan else if 0 < a then F.posInf else F.negInf)
      else fpRound (qDiv a b)
  | F.finite _, F.posInf => F.finite 0
  | F.finite _, F.negInf => F.finite 0
  | F.posInf, F.finite b => if 0 ≤ b then F.posInf else F.negInf
  | F.negInf, F.finite b => if 0 ≤ b then F.negInf else F.posInf
  | _, _ => F.nan

/-- Go conversion `float64(n)` of a non-negative integer. -/
def fpOfNat (n : Nat) : F := fpRound (n : ℚ)

/-- Go conversion `int(x)` of a `float64` on amd64: truncation toward zero;
values outside the `int64` range, `±Inf` and `NaN` all produce
`math.MinInt64` (the `cvttsd2si` indefinite value). -/
def goIntOfF : F → Int
  | F.finite q =>
      let t := ratTrunc q
      if t < -(2 ^ 63) then -(2 ^ 63)
      else if (2 ^ 63 - 1 : Int) < t then -(2 ^ 63)
      else t
  | F.posInf => -(2 ^ 63)
  | F.negInf => -(2 ^ 63)
  | F.nan => -(2 ^ 63)

/-! ## Go string and parsing primitives

`strings.Split`, `strings.TrimSpace`, `unicode.IsSpace`, ASCII
`unicode.IsLetter`/`IsDigit`, `strconv.Atoi` and `strconv.ParseFloat`,
modelled on `List Char` (a Go string's runes; every string the program
stores is valid UTF-8, and byte lengths are recovered via `Char.utf8Size`).
-/

/-- Is `c` an ASCII decimal digit? -/
def isDigitChar (c : Char) : Bool :=
  decide (48 ≤ c.toNat) && decide (c.toNat ≤ 57)

/-- Numeric value of an ASCII digit. -/
def digVal (c : Char) : Nat := c.toNat - 48

/-- Consume a maximal run of ASCII digits, accumulating their value and
count, returning `(value, digitCount, rest)`. -/
def takeDigits : List Char → Nat → Nat → Nat × Nat × List Char
  | c :: cs, acc, cnt =>
      if isDigitChar c then takeDigits cs (acc * 10 + digVal c) (cnt + 1)
      else (acc, cnt, c :: cs)
  | [], acc, cnt => (acc, cnt, [])

/-- Lower-case an ASCII letter (identity elsewhere). -/
def asciiLower (c : Char) : Char :=
  if decide (65 ≤ c.toNat) && decide (c.toNat ≤ 90) then Char.ofNat (c.toNat + 32) else c

/-- Lower-case every ASCII letter of a string. -/
def lowerList (s : List Char) : List Char := s.map asciiLower

/-- Go `strconv.Atoi` (= `ParseInt(s, 10, 0)` with 64-bit `int`): optional
sign, one or more ASCII digits, nothing else; values outside the `int64`
range are an error (`ErrRange`; the clamped value Go also returns is never
used by this program, which only checks `err != nil`). -/
def goAtoi (s : List Char) : Except Unit Int :=
  let (neg, r) :=
    match s with
    | '+' :: r => (false, r)
    | '-' :: r => (true, r)
    | r => (false, r)
  let (v, c, rest) := takeDigits r 0 0
  if c = 0 then .error ()
  else if rest ≠ [] then .error ()
  else
    let n : Int := if neg then -(v : Int) else (v : Int)
    if n < -(2 ^ 63) then .error ()
    else if (2 ^ 63 - 1 : Int) < n then .error ()
    else .ok n

/-- Exponent suffix of a float literal: empty, or `e`/`E` followed by an
optionally signed nonempty digit run consuming the rest of the string. -/
def readSignedDigits (s : List Char) : Except Unit Int :=
  let (eneg, r) :=
    match s with
    | '+' :: r => (false, r)
    | '-' :: r => (true, r)
    | r => (false, r)
  let (v, c, rest) := takeDigits r 0 0
  if c = 0 then .error ()
  else if rest ≠ [] then .error ()
  else .ok (if eneg then -(v : Int) else (v : Int))

/-- Read the (possibly absent) exponent part at the end of a float literal. -/
def readExpTail (s : List Char) : Except Unit Int :=
  match s with
  | [] => .ok 0
  | 'e' :: r => readSignedDigits r
  | 'E' :: r => readSignedDigits r
  | _ => .error ()

/-- Finish parsing a decimal float: the mantissa digits are already read
(`mant`, with `fracDigits` of them after the decimal point); parse the
exponent, build the exact rational, and round it to binary64.  Overflow
reproduces `ParseFloat`'s `ErrRange` (the program only checks `err != nil`,
so the `±Inf` value Go returns alongside is dropped). -/
def finishNumber (neg : Bool) (mant : Nat) (fracDigits : Nat) (rest : List Char) :
    Except Unit Receipt.F :=
  match readExpTail rest with
  | .error _ => .error ()
  | .ok e =>
    let q : ℚ := Receipt.qMul (mant : ℚ) (Receipt.pow10 (e - (fracDigits : Int)))
    let q2 : ℚ := if neg then -q else q
    match Receipt.fpRound q2 with
    | Receipt.F.posInf => .error ()
    | Receipt.F.negInf => .error ()
    | f => .ok f

/-- Decimal part of `strconv.ParseFloat` after the optional sign:
`digits [. digits] [exp]` or `. digits [exp]`, at least one mantissa digit. -/
def parseFloatCore (neg : Bool) (s : List Char) : Except Unit Receipt.F :=
  let (ip, ic, r1) := takeDigits s 0 0
  match r1 with
  | '.' :: r2 =>
    let (fp, fc, r3) := takeDigits r2 0 0
    if ic + fc = 0 then .error () else finishNumber neg (ip * 10 ^ fc + fp) fc r3
  | _ => if ic = 0 then .error () else finishNumber neg ip 0 r1

/-- Go `strconv.ParseFloat(s, 64)`.  Recognises `NaN` (unsigned) and the
possibly signed `Inf` / `Infinity`, all case-insensitively, with a nil
error, exactly as documented for `strconv.ParseFloat`; otherwise the
decimal syntax, correctly rounded to binary64.  Deliberate restriction of
the model: the hexadecimal float forms and digit-separating underscores
that `ParseFloat` also accepts are not modelled (no claim involves them —
they denote ordinary finite values). -/
def parseFloat (s : List Char) : Except Unit Receipt.F :=
  if s = [] then .error ()
  else if lowerList s = ['n', 'a', 'n'] then .ok Receipt.F.nan
  else
    match s with
    | '+' :: r =>
        if lowerList r = ['i', 'n', 'f'] ∨ lowerList r = ['i', 'n', 'f', 'i', 'n', 'i', 't', 'y'] then
          .ok Receipt.F.posInf
        else parseFloatCore false r
    | '-' :: r =>
        if lowerList r = ['i', 'n', 'f'] ∨ lowerList r = ['i', 'n', 'f', 'i', 'n', 'i', 't', 'y'] then
          .ok Receipt.F.negInf
        else parseFloatCore true r
    | r =>
        if lowerList r = ['i', 'n', 'f'] ∨ lowerList r = ['i', 'n', 'f', 'i', 'n', 'i', 't', 'y'] then
          .ok Receipt.F.posInf
        else parseFloatCore false r

/-- Go `strings.Split(s, sep)` for a one-character separator: always returns
at least one (possibly empty) piece. -/
def splitOnChar (sep : Char) : List Char → List (List Char)
  | [] => [[]]
  | c :: cs =>
      match splitOnChar sep cs with
      | [] => if c = sep then [[], []] else [[c]]
      | p :: ps => if c = sep then [] :: p :: ps else (c :: p) :: ps

/-- Go `unicode.IsSpace`: the Unicode `White_Space` code points. -/
def goIsSpace (c : Char) : Bool :=
  let n := c.toNat
  (decide (9 ≤ n) && decide (n ≤ 13)) || decide (n = 32) || decide (n = 0x85) ||
    decide (n = 0xA0) || decide (n = 0x1680) ||
    (decide (0x2000 ≤ n) && decide (n ≤ 0x200A)) || decide (n = 0x2028) ||
    decide (n = 0x2029) || decide (n = 0x202F) || decide (n = 0x205F) || decide (n = 0x3000)

/-- Go `strings.TrimSpace`: drop leading and trailing white space runes. -/
def goTrimSpace (s : List Char) : List Char :=
  ((s.dropWhile goIsSpace).reverse.dropWhile goIsSpace).reverse

/-- Byte length of a Go string given as its rune sequence (Go `len` counts
UTF-8 bytes). -/
def utf8Len (s : List Char) : Nat := (s.map Char.utf8Size).sum

/-- ASCII fragment of Go `unicode.IsLetter`.  The full Unicode letter table
is not reproduced; every retailer string evaluated by a claim is ASCII, and
the quantified claims never depend on how a particular rune is classified
(the retailer bonus never fails and cancels in all relational claims). -/
def goIsLetter (c : Char) : Bool :=
  (decide (65 ≤ c.toNat) && decide (c.toNat ≤ 90)) ||
    (decide (97 ≤ c.toNat) && decide (c.toNat ≤ 122))

/-- ASCII fragment of Go `unicode.IsDigit` (same caveat as `goIsLetter`). -/
def goIsDigit (c : Char) : Bool :=
  decide (48 ≤ c.toNat) && decide (c.toNat ≤ 57)

/-! ## Data model (`receiptHandler.go`) -/

/-- Go `Item`: a single line item of a receipt. -/
structure Item where
  shortDescription : String
  price : String
  deriving DecidableEq

/-- Go `PostReceiptJSON`: the submitted receipt payload. -/
structure PostReceiptJSON where
  retailer : String
  purchaseDate : String
  purchaseTime : String
  total : String
  items : List Item
  deriving DecidableEq

/-- Go `StorageReceipt`: a stored receipt — the submitted payload (embedded in
Go, a named field `post` here) plus the assigned id (a `uuid.UUID` in Go;
the program only ever observes its canonical string form, so it is
modelled as that string). -/
structure StorageReceipt where
  post : PostReceiptJSON
  id : String
  deriving DecidableEq

/-! ## The points engine (`findPoints`) -/

/-- Outcome of `findPoints`, which in Go returns `(int, error)` or panics:
`ok score` for `(score, nil)`, `err score` for `(score, e)` with `e ≠ nil`,
and `crash` for a runtime panic (index out of range). -/
inductive FpResult where
  | ok (score : Int)
  | err (score : Int)
  | crash
  deriving DecidableEq

/-- Rule 1 of `findPoints`: one point per alphanumeric rune of the retailer
name (`unicode.IsLetter(c) || unicode.IsDigit(c)`). -/
def rule1Count (retailer : String) : Int :=
  ((retailer.data.filter fun c => goIsLetter c || goIsDigit c).length : Int)

/-- The Go constant `0.25` (exactly representable in binary64). -/
def fpQuarter : F := fpRound (mkRat 1 4)

/-- The Go constant `0.2` (rounded to binary64 by the compiler). -/
def fpFifth : F := fpRound (mkRat 1 5)

/-- The Go constant `2` as a `float64`. -/
def fpTwo : F := fpRound 2

/-- The Go constant `5` as a `float64`. -/
def fpFive : F := fpRound 5

/-- The `float64` zero, as compared against by `== 0`. -/
def fpZero : F := F.finite 0

/-- Rule 2 of `findPoints`: `+50` if `totalPrice == math.Floor(totalPrice)`. -/
def rule2Bonus (totalPrice : F) : Int :=
  if fpBeq totalPrice (fpFloor totalPrice) then 50 else 0

/-- Rule 3 of `findPoints`: `+25` if `math.Mod(totalPrice, 0.25) == 0`. -/
def rule3Bonus (totalPrice : F) : Int :=
  if fpBeq (fpMod totalPrice fpQuarter) fpZero then 25 else 0

/-- Rule 4 of `findPoints`:
`m := math.Floor(float64(numItems) / 2); total += int(m * 5)`. -/
def rule4Bonus (numItems : Nat) : Int :=
  goIntOfF (fpMul (fpFloor (fpDiv (fpOfNat numItems) fpTwo)) fpFive)

/-- Rule 5 of `findPoints`, the per-item loop: for each item whose trimmed
description has byte length divisible by 3 (`len(trimmedDesc)%3 == 0` —
length 0 qualifies), parse the price (an unparseable price aborts the whole
computation with `return 0, err`) and add `int(math.Ceil(itemPrice * 0.2))`
to the running total. -/
def rule5Loop : List Item → Int → Except Unit Int
  | [], total => .ok total
  | item :: rest, total =>
      if utf8Len (goTrimSpace item.shortDescription.data) % 3 = 0 then
        match parseFloat item.price.data with
        | .error _ => .error ()
        | .ok itemPrice =>
            rule5Loop rest (total + goIntOfF (fpCeil (fpMul itemPrice fpFifth)))
      else rule5Loop rest total

/-- Rule 6 of `findPoints`: `+6` if `dateNum % 2 == 1` (Go `%` is the
truncated remainder, hence `Int.tmod`). -/
def rule6Bonus (dateNum : Int) : Int :=
  if Int.tmod dateNum 2 = 1 then 6 else 0

/-- Rule 7 of `findPoints`: nothing at exactly 14:00, else `+10` when
`hrs >= 14 && hrs < 16`. -/
def rule7Bonus (hrs mins : Int) : Int :=
  if hrs = 14 ∧ mins = 0 then 0
  else if 14 ≤ hrs ∧ hrs < 16 then 10
  else 0

/-- Go `findPoints` (receiptHandler.go:174–253), rule by rule in source order.
Every Go `return 0, err` is `.err 0`.  For rule 7 the Go code indexes
`timeSplit[0]` and `timeSplit[1]` with no length check; `strings.Split`
never returns an empty slice, so `timeSplit[0]` is always in bounds, but
when the time string contains no `':'` the access `timeSplit[1]` —
evaluated after `Atoi(timeSplit[0])` succeeds — panics with an index out of
range, modelled as `.crash`.  (The impossible empty-split case is also
`.crash`, the faithful meaning of an out-of-bounds index.) -/
def findPoints (re : StorageReceipt) : FpResult :=
  match parseFloat re.post.total.data with
  | .error _ => .err 0
  | .ok totalPrice =>
    match rule5Loop re.post.items
        (rule1Count re.post.retailer + rule2Bonus totalPrice + rule3Bonus totalPrice +
          rule4Bonus re.post.items.length) with
    | .error _ => .err 0
    | .ok t5 =>
      match splitOnChar '-' re.post.purchaseDate.data with
      | [_, _, date] =>
        (match goAtoi date with
         | .error _ => .err 0
         | .ok dateNum =>
           match splitOnChar ':' re.post.purchaseTime.data with
           | [] => .crash
           | [t0] =>
             (match goAtoi t0 with
              | .error _ => .err 0
              | .ok _ => .crash)
           | t0 :: t1 :: _ =>
             (match goAtoi t0 with
              | .error _ => .err 0
              | .ok hrs =>
                match goAtoi t1 with
                | .error _ => .err 0
                | .ok mins => .ok (t5 + rule6Bonus dateNum + rule7Bonus hrs mins)))
      | _ => .err 0

/-! ## Handlers and store -/

/-- A response body, abstracting the bytes the handlers write:
`pointsJson n` is the marshalled `{"points": n}`, `idJson s` the marshalled
`{"id": "s"}`, `text` a plain-text body. -/
inductive RespBody where
  | pointsJson (n : Int)
  | idJson (s : String)
  | text (s : String)
  deriving DecidableEq

/-- Observable outcome of a handler: an HTTP response (Go's implicit status
is 200 when `WriteHeader` is never called), or a crash (a panic escaping
the handler). -/
inductive HandlerOut where
  | responds (status : Nat) (body : RespBody)
  | crashes
  deriving DecidableEq

/-- The stored receipt built by `handleProcessReceipts`. -/
def storageOf (p : PostReceiptJSON) (newId : String) : StorageReceipt :=
  { post := p, id := newId }

/-- The store mutation of `handleProcessReceipts`:
`rh.Receipts = append(rh.Receipts, storedData)`. -/
def goSubmit (store : List StorageReceipt) (p : PostReceiptJSON) (newId : String) :
    List StorageReceipt :=
  store ++ [storageOf p newId]

/-- Go `handleProcessReceipts` (receiptHandler.go:62–110): on a JSON decode
failure (`decoded = none`) respond 400 `invalid receipt` and leave the
store unchanged; otherwise append the receipt under the freshly generated
id and respond with the id (marshalling an id-string struct never fails). -/
def handleProcessReceipts (store : List StorageReceipt)
    (decoded : Option PostReceiptJSON) (newId : String) :
    List StorageReceipt × HandlerOut :=
  match decoded with
  | none => (store, .responds 400 (.text "invalid receipt"))
  | some p => (goSubmit store p newId, .responds 200 (.idJson newId))

/-- Go `handleGetReceiptPoints` (receiptHandler.go:114–152): linear scan for
the first receipt whose id's string form equals the URL parameter.  If
found, run `findPoints`; a non-nil error is only logged (`fmt.Println`) and
the handler still marshals and writes `{"points": points}` with the
returned `points` value and implicit status 200.  A panic inside
`findPoints` escapes.  If no id matches, respond 404 `Id not found`.
The store is never modified. -/
def handleGetReceiptPoints (store : List StorageReceipt) (idFromURL : String) :
    HandlerOut :=
  match store.find? (fun receipt => idFromURL = receipt.id) with
  | some receipt =>
      (match findPoints receipt with
       | .ok points => .responds 200 (.pointsJson points)
       | .err points => .responds 200 (.pointsJson points)
       | .crash => .crashes)
  | none => .responds 404 (.text "Id not found")

/-- States of the in-memory store reachable through the handlers: initially
empty (`NewReceiptHandler`), growing only by `handleProcessReceipts`
submissions (`goSubmit`); the spec's standing assumption that `uuid.NewV7`
yields fresh identifiers is the freshness premise of the step.
`handleGetReceiptPoints` never changes the state. -/
inductive ReachableStore : List StorageReceipt → Prop
  | empty : ReachableStore []
  | submit (s : List StorageReceipt) (p : PostReceiptJSON) (newId : String) :
      ReachableStore s → (∀ r ∈ s, r.id ≠ newId) → ReachableStore (goSubmit s p newId)

/-! ## Concrete receipts (the repository's `TestPoint` fixtures and the
inputs used by witnesses and counterexamples; the ids stand in for the
`uuid.NewV7` values of the test) -/

/-- First `TestPoint` fixture: the Target receipt, expected score 28. -/
def targetReceipt : StorageReceipt :=
  { post :=
      { retailer := "Target"
        purchaseDate := "2022-01-01"
        purchaseTime := "13:01"
        total := "35.35"
        items :=
          [ { shortDescription := "Mountain Dew 12PK", price := "6.49" },
            { shortDescription := "Emils Cheese Pizza", price := "12.25" },
            { shortDescription := "Knorr Creamy Chicken", price := "1.26" },
            { shortDescription := "Doritos Nacho Cheese", price := "3.35" },
            { shortDescription := "   Klarbrunn 12-PK 12 FL OZ  ", price := "12.00" } ] }
    id := "uuid-1" }

/-- Second `TestPoint` fixture: the corner-market receipt, expected 109. -/
def cornerMarketReceipt : StorageReceipt :=
  { post :=
      { retailer := "M&M Corner Market"
        purchaseDate := "2022-03-20"
        purchaseTime := "14:33"
        total := "9.00"
        items :=
          [ { shortDescription := "Gatorade", price := "2.25" },
            { shortDescription := "Gatorade", price := "2.25" },
            { shortDescription := "Gatorade", price := "2.25" },
            { shortDescription := "Gatorade", price := "2.25" } ] }
    id := "uuid-2" }

/-- The receipt `re` with its purchase time replaced. -/
def setTime (re : StorageReceipt) (t : String) : StorageReceipt :=
  { re with post := { re.post with purchaseTime := t } }

/-- An otherwise well-formed receipt whose purchase time `"14"` contains no
`':'` and parses as an integer. -/
def noColonTimeReceipt : StorageReceipt :=
  { post :=
      { retailer := ""
        purchaseDate := "2022-01-01"
        purchaseTime := "14"
        total := "1.00"
        items := [] }
    id := "uuid-3" }

/-- An otherwise well-formed receipt with an unparseable price on an item
whose trimmed description length (1) is not a multiple of 3. -/
def badPriceShortDescReceipt : StorageReceipt :=
  { post :=
      { retailer := ""
        purchaseDate := "2022-01-02"
        purchaseTime := "13:01"
        total := "1.00"
        items := [ { shortDescription := "a", price := "notanumber" } ] }
    id := "uuid-4" }

/-- A receipt whose total does not parse, so that `findPoints` fails. -/
def badTotalReceipt : StorageReceipt :=
  { post :=
      { retailer := "Shop"
        purchaseDate := "2022-01-01"
        purchaseTime := "13:01"
        total := "notanumber"
        items := [] }
    id := "uuid-5" }

/-- An otherwise well-formed receipt with an unparseable price on an item
whose trimmed description length (3) is a multiple of 3. -/
def badPriceTriDescReceipt : StorageReceipt :=
  { post :=
      { retailer := ""
        purchaseDate := "2022-01-02"
        purchaseTime := "13:01"
        total := "2.00"
        items := [ { shortDescription := "abc", price := "x" } ] }
    id := "uuid-6" }

/-- A receipt whose total is the string `"Inf"`, which
`strconv.ParseFloat` accepts with a nil error as `+Inf`; every other field
is chosen to contribute nothing, so the whole score is what rules 2 and 3
contribute. -/
def infTotalReceipt : StorageReceipt :=
  { post :=
      { retailer := ""
        purchaseDate := "2022-01-02"
        purchaseTime := "13:01"
        total := "Inf"
        items := [] }
    id := "uuid-7" }

/-- An item whose description is all whitespace (trims to the empty
string) with a parseable price. -/
def spacesItem : Item := { shortDescription := "   ", price := "3.00" }

/-- A sample submitted payload (for the store-invariant witness). -/
def samplePost : PostReceiptJSON :=
  { retailer := "Target"
    purchaseDate := "2022-01-01"
    purchaseTime := "13:01"
    total := "35.35"
    items := [] }

/-- A one-element store reached by a single submission. -/
def sampleStore : List StorageReceipt := goSubmit [] samplePost "uuid-a"

/-- The binary64 value of the decimal string `"35.35"` (not exactly
representable; this is the nearest double, `4975070213360845 * 2 ^ (-47)`). -/
def total3535 : F := F.finite (mkRat 4975070213360845 140737488355328)

/-- Proof-layer decomposition of `findPoints` (not itself part of the Go
source): the computation up to and including rule 6.  `findPoints_decomp`
below proves `findPoints` is this followed by `timeScore`. -/
def preScore (re : StorageReceipt) : FpResult :=
  match parseFloat re.post.total.data with
  | .error _ => .err 0
  | .ok totalPrice =>
    match rule5Loop re.post.items
        (rule1Count re.post.retailer + rule2Bonus totalPrice + rule3Bonus totalPrice +
          rule4Bonus re.post.items.length) with
    | .error _ => .err 0
    | .ok t5 =>
      match splitOnChar '-' re.post.purchaseDate.data with
      | [_, _, date] =>
        (match goAtoi date with
         | .error _ => .err 0
         | .ok dateNum => .ok (t5 + rule6Bonus dateNum))
      | _ => .err 0

/-- Proof-layer decomposition of `findPoints` (not itself part of the Go
source): rule 7 applied to an accumulated score `t`. -/
def timeScore (purchaseTime : String) (t : Int) : FpResult :=
  match splitOnChar ':' purchaseTime.data with
  | [] => .crash
  | [t0] =>
      (match goAtoi t0 with
       | .error _ => .err 0
       | .ok _ => .crash)
  | t0 :: t1 :: _ =>
      (match goAtoi t0 with
       | .error _ => .err 0
       | .ok hrs =>
         match goAtoi t1 with
         | .error _ => .err 0
         | .ok mins => .ok (t + rule7Bonus hrs mins))

/-! ## Infrastructure lemmas -/

/-- Decomposition: `findPoints` is `preScore` followed by `timeScore`. -/
theorem findPoints_decomp (re : StorageReceipt) :
    findPoints re =
      (match preScore re with
       | FpResult.ok t => timeScore re.post.purchaseTime t
       | r => r) := by
  unfold findPoints preScore timeScore
  cases hp : parseFloat re.post.total.data with
  | error u => rfl
  | ok d =>
    dsimp only
    cases h5 : rule5Loop re.post.items
        (rule1Count re.post.retailer + rule2Bonus d + rule3Bonus d +
          rule4Bonus re.post.items.length) with
    | error u => rfl
    | ok t5 =>
      dsimp only
      rcases hd : splitOnChar '-' re.post.purchaseDate.data with _ | ⟨a, _ | ⟨b, _ | ⟨c, _ | ⟨e, tl⟩⟩⟩⟩ <;>
        dsimp only
      all_goals
        first
          | rfl
          | (cases hda : goAtoi c with
             | error u => rfl
             | ok dateNum => rfl)

/-- The stage `preScore` ignores the purchase time. -/
theorem preScore_setTime (re : StorageReceipt) (t : String) :
    preScore (setTime re t) = preScore re := rfl

/-- The loop `rule5Loop` fails exactly when some item has a trimmed description of
length divisible by 3 together with an unparseable price. -/
theorem rule5Loop_error_iff (items : List Item) (t : Int) :
    rule5Loop items t = Except.error () ↔
      ∃ it ∈ items, utf8Len (goTrimSpace it.shortDescription.data) % 3 = 0 ∧
        parseFloat it.price.data = Except.error () := by
  induction items generalizing t with
  | nil => simp [rule5Loop]
  | cons item rest ih =>
    unfold rule5Loop
    by_cases hd : utf8Len (goTrimSpace item.shortDescription.data) % 3 = 0
    · rw [if_pos hd]
      cases hp : parseFloat item.price.data with
      | error u => cases u; simp [hd, hp]
      | ok p => simp [hd, hp, ih]
    · rw [if_neg hd]
      simp [hd, ih]

/-- Every error return in `findPoints` carries score 0 (each Go error path
is literally `return 0, err`). -/
theorem findPoints_err_score_zero (re : StorageReceipt) (s : Int)
    (h : findPoints re = FpResult.err s) : s = 0 := by
  unfold findPoints at h
  repeat' split at h
  all_goals simp_all

/-! ## Claims -/

/-- C1: on the repository's two test fixtures, `findPoints` returns score
28 (Target receipt) and score 109 (M&M Corner Market receipt), each with a
nil error. -/
theorem c1_end_to_end_scenarios :
    findPoints targetReceipt = FpResult.ok 28 ∧
    findPoints cornerMarketReceipt = FpResult.ok 109 :=
  ⟨by decide, by decide⟩

/-- C8: whenever `findPoints` returns a non-nil error, the score returned
alongside it is exactly 0 — never a partial accumulation. -/
theorem c8_error_score_is_zero (re : StorageReceipt) (s : Int)
    (h : findPoints re = FpResult.err s) : s = 0 :=
  findPoints_err_score_zero re s h

/-- Witness for C8 at a concrete failing receipt. -/
theorem c8_error_score_is_zero_witness :
    findPoints badTotalReceipt = FpResult.err 0 ∧ (0 : Int) = 0 :=
  ⟨by decide, c8_error_score_is_zero badTotalReceipt 0 (by decide)⟩

/-- C2 (the code, not the claim): a receipt whose `purchaseTime` is `"14"`
— it does not split into exactly two `':'`-separated components, while the
total parses, there are no items, and the date is well-formed — makes
`findPoints` panic with an index out of range (`timeSplit[1]` with a
one-element slice), rather than return a parsing error. -/
theorem c2_no_colon_time_crash :
    (splitOnChar ':' noColonTimeReceipt.post.purchaseTime.data).length ≠ 2 ∧
    parseFloat noColonTimeReceipt.post.total.data = Except.ok (F.finite 1) ∧
    splitOnChar '-' noColonTimeReceipt.post.purchaseDate.data =
      ["2022".data, "01".data, "01".data] ∧
    goAtoi "01".data = Except.ok 1 ∧
    findPoints noColonTimeReceipt = FpResult.crash :=
  ⟨by decide, by decide, by decide, by decide, by decide⟩

/-- C3 counterexample: a receipt whose total parses and which contains an
item with an unparseable price does NOT necessarily make `findPoints` fail:
with the one-character description `"a"` (trimmed length 1, not a multiple
of 3) the price is never parsed and `findPoints` succeeds with score 75. -/
theorem c3_counterexample_bad_price_ignored :
    parseFloat badPriceShortDescReceipt.post.total.data = Except.ok (F.finite 1) ∧
    (∃ it ∈ badPriceShortDescReceipt.post.items,
        parseFloat it.price.data = Except.error ()) ∧
    findPoints badPriceShortDescReceipt = FpResult.ok 75 :=
  ⟨by decide, by decide, by decide⟩

/-- C3 as amended: for every receipt whose total parses, an item with an
unparseable price makes `findPoints` return a parsing error (with score 0)
provided that item's trimmed description length is a multiple of 3 — the
price of an item is only ever parsed under that length condition. -/
theorem c3_amended_bad_price_with_tri_desc (re : StorageReceipt) (d : F)
    (htotal : parseFloat re.post.total.data = Except.ok d)
    (hbad : ∃ it ∈ re.post.items,
        utf8Len (goTrimSpace it.shortDescription.data) % 3 = 0 ∧
        parseFloat it.price.data = Except.error ()) :
    findPoints re = FpResult.err 0 := by
  unfold findPoints
  rw [htotal]
  dsimp only
  rw [(rule5Loop_error_iff _ _).mpr hbad]

/-- Witness for the amended C3 at a concrete receipt. -/
theorem c3_amended_witness :
    parseFloat badPriceTriDescReceipt.post.total.data = Except.ok (F.finite 2) ∧
    (∃ it ∈ badPriceTriDescReceipt.post.items,
        utf8Len (goTrimSpace it.shortDescription.data) % 3 = 0 ∧
        parseFloat it.price.data = Except.error ()) ∧
    findPoints badPriceTriDescReceipt = FpResult.err 0 :=
  ⟨by decide, by decide,
    c3_amended_bad_price_with_tri_desc badPriceTriDescReceipt (F.finite 2)
      (by decide) (by decide)⟩

/-- C4: if the id is found in the store and `findPoints` returns a non-nil
error, the lookup handler still writes the JSON points body with the
returned score (which is 0) under the implicit 200 status — never an error
status or error body. -/
theorem c4_engine_failure_still_writes_points (store : List StorageReceipt)
    (idFromURL : String) (re : StorageReceipt) (s : Int)
    (hfind : store.find? (fun receipt => idFromURL = receipt.id) = some re)
    (herr : findPoints re = FpResult.err s) :
    handleGetReceiptPoints store idFromURL =
      HandlerOut.responds 200 (RespBody.pointsJson 0) := by
  have hz := findPoints_err_score_zero re s herr
  subst hz
  unfold handleGetReceiptPoints
  rw [hfind]
  dsimp only
  rw [herr]

/-- Replacing only the purchase time leaves the pre-time computation
untouched. -/
theorem findPoints_setTime (re : StorageReceipt) (t : String) :
    findPoints (setTime re t) =
      (match preScore re with
       | FpResult.ok n => timeScore t n
       | r => r) := by
  rw [findPoints_decomp]
  rfl

/-- Rule 7 at `"14:00"`: no bonus. -/
theorem timeScore_at_1400 (n : Int) : timeScore "14:00" n = FpResult.ok (n + 0) := rfl

/-- Rule 7 at `"14:01"`: the 10-point bonus. -/
theorem timeScore_at_1401 (n : Int) : timeScore "14:01" n = FpResult.ok (n + 10) := rfl

/-- Rule 7 at `"15:59"`: the 10-point bonus. -/
theorem timeScore_at_1559 (n : Int) : timeScore "15:59" n = FpResult.ok (n + 10) := rfl

/-- Rule 7 at `"16:00"`: no bonus. -/
theorem timeScore_at_1600 (n : Int) : timeScore "16:00" n = FpResult.ok (n + 0) := rfl

/-- C5: for a receipt that otherwise parses successfully (expressed as:
its `"14:00"` variant scores `ok n`), the afternoon rule contributes 0 at
`"14:00"`, 10 at `"14:01"`, 10 at `"15:59"`, and 0 at `"16:00"`; and in
general the +10 bonus is awarded iff `14 ≤ hour < 16` except the single
point `hour = 14, minute = 0` (the rule only ever contributes 0 or 10). -/
theorem c5_afternoon_window_boundaries :
    (∀ (re : StorageReceipt) (n : Int),
        findPoints (setTime re "14:00") = FpResult.ok n →
          findPoints (setTime re "14:01") = FpResult.ok (n + 10) ∧
          findPoints (setTime re "15:59") = FpResult.ok (n + 10) ∧
          findPoints (setTime re "16:00") = FpResult.ok n) ∧
    (∀ hrs mins : Int,
        (rule7Bonus hrs mins = 10 ↔ 14 ≤ hrs ∧ hrs < 16 ∧ ¬(hrs = 14 ∧ mins = 0)) ∧
        (rule7Bonus hrs mins = 0 ∨ rule7Bonus hrs mins = 10)) := by
  constructor
  · intro re n h
    rw [findPoints_setTime] at h
    cases hp : preScore re with
    | err s => rw [hp] at h; simp at h
    | crash => rw [hp] at h; simp at h
    | ok t =>
      rw [hp] at h
      dsimp only at h
      rw [timeScore_at_1400] at h
      have ht : n = t := by
        have := FpResult.ok.inj h
        omega
      subst ht
      refine ⟨?_, ?_, ?_⟩ <;> rw [findPoints_setTime, hp] <;> dsimp only
      · rw [timeScore_at_1401]
      · rw [timeScore_at_1559]
      · rw [timeScore_at_1600]
        exact congrArg FpResult.ok (by omega)
  · intro hrs mins
    constructor
    · unfold rule7Bonus
      by_cases h1 : hrs = 14 ∧ mins = 0
      · rw [if_pos h1]
        constructor
        · intro hh; omega
        · rintro ⟨_, _, hne⟩; exact absurd h1 hne
      · rw [if_neg h1]
        by_cases h2 : 14 ≤ hrs ∧ hrs < 16
        · rw [if_pos h2]
          exact ⟨fun _ => ⟨h2.1, h2.2, h1⟩, fun _ => rfl⟩
        · rw [if_neg h2]
          constructor
          · intro hh; omega
          · rintro ⟨ha, hb, _⟩; exact absurd ⟨ha, hb⟩ h2
    · unfold rule7Bonus
      split_ifs <;> simp

/-- Witness for C5 at the Target fixture (score 28 at `"14:00"`). -/
theorem c5_afternoon_window_witness :
    findPoints (setTime targetReceipt "14:00") = FpResult.ok 28 ∧
    (findPoints (setTime targetReceipt "14:01") = FpResult.ok (28 + 10) ∧
     findPoints (setTime targetReceipt "15:59") = FpResult.ok (28 + 10) ∧
     findPoints (setTime targetReceipt "16:00") = FpResult.ok 28) :=
  ⟨by decide, c5_afternoon_window_boundaries.1 targetReceipt 28 (by decide)⟩

/-- Witness for C4: a one-receipt store whose receipt has an unparseable
total. -/
theorem c4_engine_failure_witness :
    [badTotalReceipt].find? (fun receipt => "uuid-5" = receipt.id) =
      some badTotalReceipt ∧
    findPoints badTotalReceipt = FpResult.err 0 ∧
    handleGetReceiptPoints [badTotalReceipt] "uuid-5" =
      HandlerOut.responds 200 (RespBody.pointsJson 0) :=
  ⟨by decide, by decide,
    c4_engine_failure_still_writes_points [badTotalReceipt] "uuid-5" badTotalReceipt 0
      (by decide) (by decide)⟩

/-- C6: the parsed total `"35.35"` earns neither the round-dollar nor the
quarter-multiple bonus (its nearest double is neither equal to its floor
nor an exact multiple of 0.25), while `"9.00"` earns both (50 + 25), under
the exact floating-point comparisons of rules 2 and 3. -/
theorem c6_total_bonus_at_3535_and_900 :
    parseFloat "35.35".data = Except.ok total3535 ∧
    rule2Bonus total3535 = 0 ∧
    rule3Bonus total3535 = 0 ∧
    parseFloat "9.00".data = Except.ok (F.finite 9) ∧
    rule2Bonus (F.finite 9) = 50 ∧
    rule3Bonus (F.finite 9) = 25 :=
  ⟨by decide, by decide, by decide, by decide, by decide, by decide⟩

/-- C7: an item whose description trims to the empty string (trimmed
length 0, and `0 % 3 = 0`) earns `int(math.Ceil(price * 0.2))` points from
rule 5, exactly as any item whose trimmed description length is a multiple
of 3 does. -/
theorem c7_empty_description_earns_ceiling (item : Item) (rest : List Item)
    (t : Int) (p : F) (hp : parseFloat item.price.data = Except.ok p) :
    (goTrimSpace item.shortDescription.data = [] →
        rule5Loop (item :: rest) t =
          rule5Loop rest (t + goIntOfF (fpCeil (fpMul p fpFifth)))) ∧
    (utf8Len (goTrimSpace item.shortDescription.data) % 3 = 0 →
        rule5Loop (item :: rest) t =
          rule5Loop rest (t + goIntOfF (fpCeil (fpMul p fpFifth)))) := by
  constructor
  · intro hemp
    have hd : utf8Len (goTrimSpace item.shortDescription.data) % 3 = 0 := by
      rw [hemp]; rfl
    conv_lhs => unfold rule5Loop
    rw [if_pos hd, hp]
  · intro hd
    conv_lhs => unfold rule5Loop
    rw [if_pos hd, hp]

/-- Witness for C7 at an all-whitespace description. -/
theorem c7_empty_description_witness :
    parseFloat spacesItem.price.data = Except.ok (F.finite 3) ∧
    goTrimSpace spacesItem.shortDescription.data = [] ∧
    rule5Loop [spacesItem] 0 =
      rule5Loop [] (0 + goIntOfF (fpCeil (fpMul (F.finite 3) fpFifth))) :=
  ⟨by decide, by decide,
    (c7_empty_description_earns_ceiling spacesItem [] 0 (F.finite 3) (by decide)).1
      (by decide)⟩

/-- C9: the store is append-only — a successful submission appends exactly
one stored receipt (the collection grows by one and the existing prefix is
untouched) — and in every reachable store state (submissions with fresh
identifiers, lookups never mutating), all stored ids are distinct. -/
theorem c9_store_append_only_unique_ids :
    (∀ (s : List StorageReceipt) (p : PostReceiptJSON) (i : String),
        handleProcessReceipts s (some p) i =
          (s ++ [storageOf p i], HandlerOut.responds 200 (RespBody.idJson i)) ∧
        (goSubmit s p i).length = s.length + 1 ∧
        (goSubmit s p i).take s.length = s) ∧
    (∀ s : List StorageReceipt, ReachableStore s →
        (s.map StorageReceipt.id).Nodup) := by
  constructor
  · intro s p i
    refine ⟨rfl, by simp [goSubmit], ?_⟩
    rw [goSubmit]
    exact List.take_left s _
  · intro s hs
    induction hs with
    | empty => simp
    | submit s p newId hs fresh ih =>
      rw [goSubmit, List.map_append, List.nodup_append]
      refine ⟨ih, by simp, ?_⟩
      intro x hx hy
      simp only [storageOf, List.map_cons, List.map_nil, List.mem_singleton] at hy
      subst hy
      obtain ⟨r, hr, hrid⟩ := List.mem_map.mp hx
      exact fresh r hr hrid

/-- Witness for C9: a concrete reachable one-element store with distinct
ids. -/
theorem c9_store_invariant_witness :
    ReachableStore sampleStore ∧ (sampleStore.map StorageReceipt.id).Nodup :=
  ⟨ReachableStore.submit [] samplePost "uuid-a" ReachableStore.empty (by simp),
    c9_store_append_only_unique_ids.2 sampleStore
      (ReachableStore.submit [] samplePost "uuid-a" ReachableStore.empty (by simp))⟩

/-- Bridge: `qMul` agrees with rational multiplication. -/
theorem qMul_eq_mul (a b : ℚ) : qMul a b = a * b := by
  rw [qMul, show ((a.den : Int) * b.den) = ((a.den * b.den : ℕ) : Int) by push_cast; ring,
    Rat.divInt_ofNat, ← Rat.normalize_eq_mkRat (Nat.mul_ne_zero a.den_nz b.den_nz),
    ← Rat.mul_def]

/-- Bridge: `qSub` agrees with rational subtraction. -/
theorem qSub_eq_sub (a b : ℚ) : qSub a b = a - b := by
  rw [qSub, show ((a.den : Int) * b.den) = ((a.den * b.den : ℕ) : Int) by push_cast; ring,
    Rat.divInt_ofNat, ← Rat.sub_def']

/-- Bridge: `Rat.floor` is the `⌊·⌋` of the `FloorRing` instance. -/
theorem ratFloor_eq_intFloor (q : ℚ) : q.floor = ⌊q⌋ := rfl

/-- Truncation `ratTrunc` fixes integers. -/
theorem ratTrunc_intCast (m : ℤ) : ratTrunc (m : ℚ) = m := by
  unfold ratTrunc
  split_ifs with h
  · rw [ratFloor_eq_intFloor, Int.floor_intCast]
  · rw [show -((m : ℤ) : ℚ) = (((-m : ℤ)) : ℚ) by push_cast; ring,
      ratFloor_eq_intFloor, Int.floor_intCast]
    ring

/-- Key fact: `math.Mod(x, 0.25)` is exactly zero on every integer-valued double. -/
theorem fpMod_intCast_quarter (n : ℤ) :
    fpMod (F.finite (n : ℚ)) (F.finite (mkRat 1 4)) = F.finite 0 := by
  unfold fpMod
  dsimp only
  rw [if_neg (by decide : ¬(mkRat 1 4 : ℚ) = 0)]
  have h1 : qDiv ((n : ℤ) : ℚ) (mkRat 1 4) = ((n * 4 : ℤ) : ℚ) := by
    unfold qDiv
    rw [Rat.intCast_num, Rat.intCast_den,
      show (mkRat 1 4).den = 4 from rfl, show (mkRat 1 4).num = 1 from rfl]
    rw [show ((1 : ℕ) : Int) * 1 = 1 by ring, Rat.divInt_one]
    norm_cast
  rw [h1, ratTrunc_intCast]
  have h2 : qMul (mkRat 1 4) ((n * 4 : ℤ) : ℚ) = ((n : ℤ) : ℚ) := by
    rw [qMul_eq_mul, Rat.mkRat_eq_divInt, Rat.divInt_eq_div]
    push_cast
    ring
  rw [h2, qSub_eq_sub, sub_self]

/-- C10 as amended: for every receipt whose total parses to a finite
double, if the round-dollar bonus (rule 2) is awarded then the
quarter-multiple bonus (rule 3) is as well, so the combined contribution
of rules 2 and 3 is 0, 25 or 75 — never 50 alone.  (The unamended claim
fails only for the non-finite totals `Inf`/`Infinity`, see the
counterexample.) -/
theorem c10_round_dollar_implies_quarter (re : StorageReceipt) (q : ℚ)
    (_h : parseFloat re.post.total.data = Except.ok (F.finite q)) :
    (rule2Bonus (F.finite q) = 50 → rule3Bonus (F.finite q) = 25) ∧
    (rule2Bonus (F.finite q) + rule3Bonus (F.finite q) = 0 ∨
     rule2Bonus (F.finite q) + rule3Bonus (F.finite q) = 25 ∨
     rule2Bonus (F.finite q) + rule3Bonus (F.finite q) = 75) := by
  have key : rule2Bonus (F.finite q) = 50 → rule3Bonus (F.finite q) = 25 := by
    intro h50
    have hq : q = ((q.floor : ℤ) : ℚ) := by
      unfold rule2Bonus at h50
      split_ifs at h50 with hc
      · simp only [fpBeq, fpFloor, decide_eq_true_eq] at hc
        exact hc
      · exact absurd h50 (by decide)
    unfold rule3Bonus
    rw [show fpQuarter = F.finite (mkRat 1 4) from by decide]
    rw [hq, fpMod_intCast_quarter]
    rfl
  refine ⟨key, ?_⟩
  have h2v : rule2Bonus (F.finite q) = 0 ∨ rule2Bonus (F.finite q) = 50 := by
    unfold rule2Bonus; split_ifs <;> simp
  have h3v : rule3Bonus (F.finite q) = 0 ∨ rule3Bonus (F.finite q) = 25 := by
    unfold rule3Bonus; split_ifs <;> simp
  rcases h2v with h2 | h2
  · rcases h3v with h3 | h3
    · left; omega
    · right; left; omega
  · right; right
    rw [h2, key h2]
    decide

/-- Witness for the amended C10 at the corner-market fixture (total
`"9.00"`). -/
theorem c10_round_dollar_witness :
    parseFloat cornerMarketReceipt.post.total.data = Except.ok (F.finite 9) ∧
    ((rule2Bonus (F.finite 9) = 50 → rule3Bonus (F.finite 9) = 25) ∧
     (rule2Bonus (F.finite 9) + rule3Bonus (F.finite 9) = 0 ∨
      rule2Bonus (F.finite 9) + rule3Bonus (F.finite 9) = 25 ∨
      rule2Bonus (F.finite 9) + rule3Bonus (F.finite 9) = 75)) :=
  ⟨by decide, c10_round_dollar_implies_quarter cornerMarketReceipt 9 (by decide)⟩

/-- C10 counterexample: the total string `"Inf"` parses with a nil error
(`strconv.ParseFloat` accepts it as `+Inf`); `+Inf` equals its own floor,
so rule 2 awards 50, but `math.Mod(+Inf, 0.25)` is `NaN`, so rule 3 awards
nothing — the receipt scores exactly 50 from rules 2 and 3 combined. -/
theorem c10_counterexample_inf_total :
    parseFloat infTotalReceipt.post.total.data = Except.ok F.posInf ∧
    rule2Bonus F.posInf = 50 ∧
    rule3Bonus F.posInf = 0 ∧
    findPoints infTotalReceipt = FpResult.ok 50 :=
  ⟨by decide, by decide, by decide, by decide⟩

end Receipt
